import Mathlib

/-
Verification of the fcfs-booking claim engine.

The development shallowly embeds the core of the fcfs-booking system:
the FCFS claim transaction (src/app/api/claims/route.ts), the cancel
transaction (src/app/api/cancel-claim/route.ts), the alternatives query
(src/app/api/alternatives/route.ts), the generic API error mapper
(src/lib/responses.ts), the outbox dispatcher (scripts outbox worker),
and the webhook HMAC signing utilities (src/lib/crypto.ts).

The relational store is modelled as lists of rows; every SQL statement of
the handlers becomes an explicit query over those lists, keeping the
predicates and the order of effects of the source.  Timestamps are natural
numbers (unix seconds for the API layer, milliseconds for the dispatcher,
matching the units each piece of source uses); calendar dates are integers
counting days.
-/

namespace FcfsBooking

/-- Status of a job slot, mirroring the text enum of the job_slots table:
available, claimed, cancelled, completed. -/
inductive SlotStatus
  | available
  | claimed
  | cancelled
  | completed
deriving DecidableEq

/-- Cancel reasons accepted by cancelClaimRequestSchema in src/lib/validation.ts. -/
inductive CancelReason
  | no_show
  | weather
  | client_change
  | material_delay
  | other
deriving DecidableEq

/-- Row of the job_slots table (migrations/001_initial_schema.sql), restricted to
the columns the claim engine reads or writes. -/
structure JobSlot where
  id : String
  tenant_id : String
  job_post_id : String
  work_date : Int
  status : SlotStatus
  claimed_by_company : Option String
  claimed_by_user : Option String
  claimed_at : Option Nat
  canceled_at : Option Nat
  cancel_reason : Option CancelReason
  created_at : Nat
  updated_at : Nat
deriving DecidableEq

/-- Row of the claims table: one row per successful FCFS transition.
request_id is the caller-supplied idempotency key. -/
structure ClaimRow where
  id : String
  tenant_id : String
  job_slot_id : String
  company_id : String
  user_id : Option String
  request_id : String
  claimed_at : Nat
deriving DecidableEq

/-- Row of the job_posts table, restricted to the columns used by the engine. -/
structure JobPost where
  id : String
  tenant_id : String
  project_id : String
  trade : String
  title : String
deriving DecidableEq

/-- Row of the projects table, restricted to the columns used by the engine. -/
structure Project where
  id : String
  dw_project_id : Option String
deriving DecidableEq

/-- Lifecycle status of an integration_outbox row. -/
inductive OutboxStatus
  | pending
  | sent
  | failed
deriving DecidableEq

/-- Structured claim.confirmed payload, the flattening of the JSON object built
by createClaimConfirmedPayload in src/lib/crypto.ts. -/
structure ClaimConfirmedPayload where
  event : String
  version : String
  id : String
  occurred_at : Nat
  producer : String
  dw_project_id : Option String
  job_post_id : String
  job_post_work_date : Int
  slot_id : String
  slot_status : String
  claim_id : String
  company_id : String
  user_id : Option String
  claimed_at : Nat
  tenant_id : String
deriving DecidableEq

/-- Row of the integration_outbox table as inserted by the claims handler. -/
structure OutboxRow where
  event_id : String
  event_name : String
  payload : ClaimConfirmedPayload
  target : String
  status : OutboxStatus
  retry_count : Nat
  next_attempt_at : Nat
  created_at : Nat
deriving DecidableEq

/-- Payload of the audit row written by the claims handler. -/
structure AuditClaimPayload where
  company_id : String
  request_id : String
  previous_status : String
  new_status : String
deriving DecidableEq

/-- Payload of the audit row written by the cancel handler. -/
structure AuditCancelPayload where
  reason : CancelReason
  claim_id : Option String
  previous_status : String
  new_status : String
  claimed_by_company : Option String
  claimed_at : Option Nat
deriving DecidableEq

/-- Audit payload: the JSON column is one of the two shapes the engine writes. -/
inductive AuditPayload
  | claimP (p : AuditClaimPayload)
  | cancelP (p : AuditCancelPayload)
deriving DecidableEq

/-- Row of the audit_logs table. -/
structure AuditRow where
  tenant_id : String
  actor_user_id : Option String
  actor_role : String
  action : String
  target_table : String
  target_id : String
  payload : AuditPayload
  created_at : Nat
deriving DecidableEq

/-- The relational store: the tables the claim engine touches, as lists of rows. -/
structure DB where
  slots : List JobSlot
  claims : List ClaimRow
  job_posts : List JobPost
  projects : List Project
  outbox : List OutboxRow
  audit : List AuditRow
deriving DecidableEq

/-- Slot part of the claims endpoint response body. -/
structure SlotView where
  id : String
  status : SlotStatus
  work_date : Int
deriving DecidableEq

/-- Claim part of the claims endpoint response body. -/
structure ClaimView where
  id : String
  company_id : String
  user_id : Option String
  claimed_at : Nat
deriving DecidableEq

/-- Result of the claims endpoint: either the success body or an error
envelope (code, message, HTTP status), as in src/lib/responses.ts. -/
inductive ClaimApiResult
  | ok (slot : SlotView) (claim : ClaimView)
  | err (code : String) (message : String) (status : Nat)
deriving DecidableEq

/-- Character-level helper for the substring checks of handleApiError:
true when the second list is a leading run of the first. -/
def leadsWith : List Char → List Char → Bool
  | _, [] => true
  | [], _ :: _ => false
  | c :: l, d :: p => c == d && leadsWith l p

/-- Character-level containment, the model of JavaScript includes. -/
def seqHas (p : List Char) : List Char → Bool
  | [] => leadsWith [] p
  | c :: t => leadsWith (c :: t) p || seqHas p t

/-- Model of String.prototype.includes as used by handleApiError. -/
def strIncludes (s pat : String) : Bool :=
  seqHas pat.data s.data

/-- Model of handleApiError in src/lib/responses.ts: classify an error by
substring checks on its message, producing (code, message, HTTP status). -/
def handleApiError (msg : String) : String × String × Nat :=
  if strIncludes msg "Unauthorized" then
    ("UNAUTHORIZED", "Invalid or missing authentication", 401)
  else if strIncludes msg "not found" then
    ("NOT_FOUND", "Resource not found", 404)
  else if strIncludes msg "duplicate key" then
    ("DUPLICATE_ENTRY", "Resource already exists", 409)
  else if strIncludes msg "foreign key" then
    ("VALIDATION_ERROR", "Invalid input: Referenced resource does not exist", 422)
  else
    ("INTERNAL_ERROR", "Internal server error", 500)

/-- Predicate of the idempotency probe: claims row matching the caller's
request_id inside the caller's tenant. -/
def probePred (requestId tenantId : String) (c : ClaimRow) : Bool :=
  decide (c.request_id = requestId ∧ c.tenant_id = tenantId)

/-- Tenant-scoped lookup of a slot by primary key, as in the WHERE clauses
id = slotId AND tenant_id = tenantId. -/
def keyPred (slotId tenantId : String) (s : JobSlot) : Bool :=
  decide (s.id = slotId ∧ s.tenant_id = tenantId)

/-- Predicate of the atomic FCFS conditional update: id, tenant, and
status = available. -/
def casPred (slotId tenantId : String) (s : JobSlot) : Bool :=
  decide (s.id = slotId ∧ s.tenant_id = tenantId ∧ s.status = SlotStatus.available)

/-- SET clause of the FCFS conditional update: stamp the claim columns, flip
status to claimed, touch updated_at. -/
def casStamp (companyId : String) (userId : Option String) (now : Nat) (s : JobSlot) : JobSlot :=
  { s with
      claimed_by_company := some companyId
      claimed_by_user := userId
      claimed_at := some now
      status := SlotStatus.claimed
      updated_at := now }

/-- Global uniqueness check of claims.request_id (UNIQUE, not tenant-scoped). -/
def reqDupPred (requestId : String) (c : ClaimRow) : Bool :=
  decide (c.request_id = requestId)

/-- Uniqueness check of claims.job_slot_id (UNIQUE, one claim per slot). -/
def slotDupPred (slotId : String) (c : ClaimRow) : Bool :=
  decide (c.job_slot_id = slotId)

/-- Join of job_posts and projects performed for the outbox payload; the
JavaScript or-null turns an empty dw_project_id into null. -/
def dwLookup (db : DB) (tenantId jobPostId : String) : Option String :=
  match (db.job_posts.find? (fun p =>
      decide (p.id = jobPostId ∧ p.tenant_id = tenantId))).bind (fun p =>
    (db.projects.find? (fun pr => decide (pr.id = p.project_id))).map
      (fun pr => pr.dw_project_id)) with
  | some (some d) => if d = "" then none else some d
  | _ => none

/-- Outbox row inserted by the claim transaction, with the structured
claim.confirmed payload built by createClaimConfirmedPayload. -/
def claimOutboxRow (db : DB) (tenantId slotId companyId : String)
    (userId : Option String) (now : Nat) (claimId eventId payloadId : String)
    (s0 : JobSlot) : OutboxRow :=
  ⟨eventId, "claim.confirmed",
    ⟨"claim.confirmed", "1.0", payloadId, now, "fcfs-booking",
      dwLookup db tenantId s0.job_post_id, s0.job_post_id, s0.work_date, slotId,
      "claimed", claimId, companyId, userId, now, tenantId⟩,
    "dw", .pending, 0, now, now⟩

/-- Audit row inserted by the claim transaction. -/
def claimAuditRow (tenantId slotId companyId requestId : String)
    (userId : Option String) (now : Nat) : AuditRow :=
  ⟨tenantId, userId, "sub_admin", "claim", "job_slots", slotId,
    .claimP ⟨companyId, requestId, "available", "claimed"⟩, now⟩

/-- Outcome of the claim transaction body, before the HTTP mapping. -/
inductive ClaimOutcome
  | idempotent (slot : SlotView) (claim : ClaimView)
  | conflict
  | success (slot : SlotView) (claim : ClaimView)
deriving DecidableEq

/-- Claim transaction of POST /api/claims, step for step: idempotency probe,
atomic FCFS conditional update, zero-row discrimination, claim insert with
its two uniqueness constraints, outbox enqueue, audit insert.  Errors are the
thrown messages; the route rolls the store back on error. -/
def claimTx (db : DB) (tenantId : String) (userId : Option String)
    (slotId companyId requestId : String)
    (now : Nat) (claimId eventId payloadId : String) :
    Except String (ClaimOutcome × DB) :=
  let probe := db.claims.filterMap (fun c =>
    if probePred requestId tenantId c then
      (db.slots.find? (fun s => keyPred c.job_slot_id tenantId s)).map (fun s => (c, s))
    else none)
  match probe with
  | (c, s) :: _ =>
    .ok (.idempotent ⟨s.id, s.status, s.work_date⟩
          ⟨c.id, c.company_id, c.user_id, c.claimed_at⟩, db)
  | [] =>
    match db.slots.find? (casPred slotId tenantId) with
    | none =>
      match db.slots.find? (keyPred slotId tenantId) with
      | none => .error "Slot not found or access denied"
      | some _ => .ok (.conflict, db)
    | some s0 =>
      let s1 := casStamp companyId userId now s0
      let slots1 := db.slots.map (fun s =>
        if casPred slotId tenantId s then casStamp companyId userId now s else s)
      if db.claims.any (reqDupPred requestId) then
        .error "duplicate key value violates unique constraint claims_request_id_key"
      else if db.claims.any (slotDupPred slotId) then
        .error "duplicate key value violates unique constraint claims_job_slot_id_key"
      else
        let newClaim : ClaimRow :=
          ⟨claimId, tenantId, slotId, companyId, userId, requestId, now⟩
        .ok (.success ⟨s1.id, s1.status, s1.work_date⟩ ⟨claimId, companyId, userId, now⟩,
          { db with
              slots := slots1
              claims := db.claims ++ [newClaim]
              outbox := db.outbox ++
                [claimOutboxRow db tenantId slotId companyId userId now claimId eventId payloadId s0]
              audit := db.audit ++ [claimAuditRow tenantId slotId companyId requestId userId now] })

/-- POST /api/claims: run the transaction, then map the outcome to the HTTP
response as the route does; an error rolls the transaction back (the store is
returned unchanged) and goes through handleApiError. -/
def claimRoute (db : DB) (tenantId : String) (userId : Option String)
    (slotId companyId requestId : String)
    (now : Nat) (claimId eventId payloadId : String) :
    ClaimApiResult × DB :=
  match claimTx db tenantId userId slotId companyId requestId now claimId eventId payloadId with
  | .error m =>
    let e := handleApiError m
    (.err e.1 e.2.1 e.2.2, db)
  | .ok (.conflict, db1) =>
    (.err "ALREADY_CLAIMED" "This slot has been claimed by someone else." 409, db1)
  | .ok (.idempotent sv cv, db1) => (.ok sv cv, db1)
  | .ok (.success sv cv, db1) => (.ok sv cv, db1)

/-- Slot body returned by the cancel endpoint (RETURNING clause of the
cancel update). -/
structure CancelSlotView where
  id : String
  status : SlotStatus
  canceled_at : Nat
  cancel_reason : CancelReason
deriving DecidableEq

/-- Result of the cancel endpoint. -/
inductive CancelApiResult
  | ok (slot : CancelSlotView)
  | err (code : String) (message : String) (status : Nat)
deriving DecidableEq

/-- Predicate of the cancel conditional update: id, tenant, status = claimed. -/
def cancelPred (slotId tenantId : String) (s : JobSlot) : Bool :=
  decide (s.id = slotId ∧ s.tenant_id = tenantId ∧ s.status = SlotStatus.claimed)

/-- SET clause of the cancel update: only status, canceled_at, cancel_reason
and updated_at are written. -/
def cancelStamp (reason : CancelReason) (now : Nat) (s : JobSlot) : JobSlot :=
  { s with
      status := SlotStatus.cancelled
      canceled_at := some now
      cancel_reason := some reason
      updated_at := now }

/-- Join predicate of the cancel status read: the claim row of the slot,
tenant-scoped by row-level security. -/
def claimOfSlotPred (slotId tenantId : String) (c : ClaimRow) : Bool :=
  decide (c.job_slot_id = slotId ∧ c.tenant_id = tenantId)

/-- Cancel transaction of POST /api/cancel-claim, step for step: read the slot
left-joined with its claim, classify the status, require the claim row,
conditionally update claimed to cancelled, insert the cancel audit row.
No outbox row is written anywhere in this transaction. -/
def cancelTx (db : DB) (tenantId : String) (userId : Option String)
    (slotId : String) (reason : CancelReason) (now : Nat) :
    Except String (CancelSlotView × DB) :=
  match db.slots.find? (keyPred slotId tenantId) with
  | none => .error "SLOT_NOT_FOUND"
  | some s =>
    let claimRow := db.claims.find? (claimOfSlotPred slotId tenantId)
    if s.status = SlotStatus.claimed then
      match claimRow with
      | none => .error "NO_CLAIM_FOUND"
      | some c =>
        match db.slots.find? (cancelPred slotId tenantId) with
        | none => .error "CANCEL_FAILED"
        | some s0 =>
          let s1 := cancelStamp reason now s0
          let slots1 := db.slots.map (fun x =>
            if cancelPred slotId tenantId x then cancelStamp reason now x else x)
          let audRow : AuditRow :=
            ⟨tenantId, userId, "sub_admin", "cancel", "job_slots", slotId,
              .cancelP ⟨reason, some c.id, "claimed", "cancelled",
                some c.company_id, s.claimed_at⟩, now⟩
          .ok (⟨s1.id, s1.status, now, reason⟩,
            { db with slots := slots1, audit := db.audit ++ [audRow] })
    else
      match s.status with
      | .available => .error "SLOT_NOT_CLAIMED"
      | .cancelled => .error "ALREADY_CANCELLED"
      | .completed => .error "ALREADY_COMPLETED"
      | .claimed => .error "INVALID_STATUS"

/-- POST /api/cancel-claim: run the transaction and map the thrown business
errors to HTTP responses exactly as the route's switch does; anything else
falls through to handleApiError.  Errors roll the transaction back. -/
def cancelRoute (db : DB) (tenantId : String) (userId : Option String)
    (slotId : String) (reason : CancelReason) (now : Nat) :
    CancelApiResult × DB :=
  match cancelTx db tenantId userId slotId reason now with
  | .ok (v, db1) => (.ok v, db1)
  | .error m =>
    if m = "SLOT_NOT_FOUND" then
      (.err "NOT_FOUND" "Slot not found or access denied not found" 404, db)
    else if m = "SLOT_NOT_CLAIMED" then
      (.err "SLOT_NOT_CLAIMED" "Cannot cancel a slot that is not claimed" 409, db)
    else if m = "ALREADY_CANCELLED" then
      (.err "ALREADY_CANCELLED" "This slot has already been cancelled" 409, db)
    else if m = "ALREADY_COMPLETED" then
      (.err "ALREADY_COMPLETED" "Cannot cancel a completed slot" 409, db)
    else if m = "NO_CLAIM_FOUND" then
      (.err "NO_CLAIM_FOUND" "No claim record found for this slot" 409, db)
    else if m = "UNAUTHORIZED_CANCEL" then
      (.err "FORBIDDEN" "You are not authorized to cancel this claim" 403, db)
    else if m = "CANCEL_FAILED" then
      (.err "CANCEL_FAILED" "Failed to cancel claim due to concurrent modification" 409, db)
    else
      let e := handleApiError m
      (.err e.1 e.2.1 e.2.2, db)

/-- Row produced by the alternatives SELECT: slot joined with its job post,
carrying created_at for the secondary sort key. -/
structure AltRow where
  slot_id : String
  work_date : Int
  job_post_id : String
  title : String
  trade : String
  created_at : Nat
deriving DecidableEq

/-- Ordering of the alternatives query: ORDER BY work_date ASC,
created_at DESC. -/
def altLe (a b : AltRow) : Prop :=
  a.work_date < b.work_date ∨ (a.work_date = b.work_date ∧ b.created_at ≤ a.created_at)

instance : DecidableRel altLe := fun a b => by
  unfold altLe
  infer_instance

instance : IsTotal AltRow altLe :=
  ⟨by
    intro a b
    unfold altLe
    omega⟩

instance : IsTrans AltRow altLe :=
  ⟨by
    intro a b c
    unfold altLe
    omega⟩

/-- Validation of the days query parameter, from alternativesQuerySchema:
integer, min 1, max 30, default 3. -/
def parseDaysParam : Option Int → Option Int
  | none => some 3
  | some d => if 1 ≤ d ∧ d ≤ 30 then some d else none

/-- GET /api/alternatives: resolve the origin slot and its job post (404 when
missing), then select available slots of the same project and trade within
plus-or-minus days of the origin date, excluding the origin, ordered by
work_date ascending then created_at descending, limited to three. -/
def alternativesGET (db : DB) (tenantId slotId : String) (days : Int) :
    Option (List AltRow) :=
  match (db.slots.find? (keyPred slotId tenantId)).bind (fun s =>
      (db.job_posts.find? (fun p => decide (p.id = s.job_post_id))).map (fun p => (s, p))) with
  | none => none
  | some (os, op) =>
    let cand := db.slots.filterMap (fun s =>
      match db.job_posts.find? (fun p => decide (p.id = s.job_post_id)) with
      | none => none
      | some p =>
        if p.project_id = op.project_id ∧ p.trade = op.trade ∧
            s.status = SlotStatus.available ∧ ¬ s.id = slotId ∧
            os.work_date - days ≤ s.work_date ∧ s.work_date ≤ os.work_date + days ∧
            s.tenant_id = tenantId then
          some ⟨s.id, s.work_date, p.id, p.title, p.trade, s.created_at⟩
        else none)
    some ((cand.insertionSort altLe).take 3)

namespace Outbox

/-- Retry delay schedule of the outbox worker, in seconds: 1m, 5m, 15m, 1h, 6h. -/
def retryDelaysSec : List Nat := [60, 300, 900, 3600, 21600]

/-- Model of calculateRetryDelay: the next attempt time in milliseconds,
indexing the schedule at min(retryCount, length - 1). -/
def calculateRetryDelay (retryCount : Nat) (nowMs : Nat) : Nat :=
  nowMs + 1000 * retryDelaysSec.getD (min retryCount (retryDelaysSec.length - 1)) 0

/-- Mutable columns of an integration_outbox row as the worker sees them. -/
structure OutboxEvent where
  status : OutboxStatus
  retry_count : Nat
  next_attempt_at : Nat
  updated_at : Nat
deriving DecidableEq

/-- Outcome of one webhook delivery attempt: an HTTP status, or a transport
error (timeout, connection failure). -/
inductive WebhookResponse
  | http (status : Nat)
  | transportError
deriving DecidableEq

/-- Model of response.ok in sendWebhook: status in the 2xx range.  This is the
only classification the worker applies to a delivery outcome. -/
def sendSuccess : WebhookResponse → Bool
  | .http s => decide (200 ≤ s ∧ s < 300)
  | .transportError => false

/-- Model of processEvent in the outbox worker: on success mark the event
sent; on failure either park it as failed (when retry_count + 1 exceeds
maxRetries) or schedule the next attempt through calculateRetryDelay. -/
def processEvent (maxRetries : Nat) (e : OutboxEvent) (r : WebhookResponse)
    (nowMs : Nat) : OutboxEvent :=
  if sendSuccess r then
    { e with status := OutboxStatus.sent, updated_at := nowMs }
  else
    let newRetryCount := e.retry_count + 1
    if maxRetries < newRetryCount then
      { e with status := OutboxStatus.failed, retry_count := newRetryCount, updated_at := nowMs }
    else
      { e with
          retry_count := newRetryCount
          next_attempt_at := calculateRetryDelay newRetryCount nowMs
          updated_at := nowMs }

/-- Eligibility of an event for a batch, from fetchPendingEvents:
status pending or failed, and the attempt time has elapsed. -/
def eligible (e : OutboxEvent) (nowMs : Nat) : Bool :=
  decide ((e.status = OutboxStatus.pending ∨ e.status = OutboxStatus.failed) ∧
    e.next_attempt_at ≤ nowMs)

/-- One poll tick of the worker restricted to a single event: the event is
processed when eligible, otherwise left alone. -/
def dispatchStep (maxRetries : Nat) (respond : Nat → WebhookResponse)
    (e : OutboxEvent) (nowMs : Nat) : OutboxEvent :=
  if eligible e nowMs then processEvent maxRetries e (respond nowMs) nowMs else e

/-- The worker loop over a list of poll times. -/
def dispatchRun (maxRetries : Nat) (respond : Nat → WebhookResponse)
    (e : OutboxEvent) (ticks : List Nat) : OutboxEvent :=
  ticks.foldl (dispatchStep maxRetries respond) e

/-- State of an event after k consecutive deliveries that all received the
response r, the i-th delivery happening at time times i. -/
def afterDeliveries (maxRetries : Nat) (r : WebhookResponse) (times : Nat → Nat) :
    Nat → OutboxEvent → OutboxEvent
  | 0, e => e
  | Nat.succ k, e =>
    processEvent maxRetries (afterDeliveries maxRetries r times k e) r (times (k + 1))

end Outbox

namespace WebhookCrypto

/-- Unary encoding of one character: toNat copies of the letter a, then one b. -/
def encChar (c : Char) : List Char :=
  List.replicate c.toNat 'a' ++ ['b']

/-- Unary encoding of a character list, concatenating the character codes. -/
def encodeChars : List Char → List Char
  | [] => []
  | c :: l => encChar c ++ encodeChars l

/-- Modelled from the spec: HMAC-SHA256 of Node crypto (createHmac, digest hex)
is outside this repository; section 6.3 specifies computing
HMAC-SHA256(secret, message) and hex-encoding it.  The digest is modelled as a
deterministic keyed digest, injective in the message for a fixed secret (the
ideal-MAC reading the spec's round-trip property relies on), whose output uses
only the letters a, b, c, so that, like a hex digest, it never contains the
equals sign the signature format splits on. -/
def hmacSha256Hex (secret message : String) : String :=
  ⟨encodeChars secret.data ++ 'c' :: encodeChars message.data⟩

/-- Timestamp used by sign: the optional argument, except that the
JavaScript-falsy zero (and absence) falls back to the current time. -/
def signTs (timestamp : Option Nat) (nowSec : Nat) : Nat :=
  match timestamp with
  | some t => if t = 0 then nowSec else t
  | none => nowSec

/-- Message signed by sign and verify: the timestamp, a dot, and the body. -/
def signMessage (body : String) (timestamp : Option Nat) (nowSec : Nat) : String :=
  toString (signTs timestamp nowSec) ++ "." ++ body

/-- Model of sign in src/lib/crypto.ts: the sha256= tag in front of the keyed
digest of the timestamped message. -/
def sign (body secret : String) (timestamp : Option Nat) (nowSec : Nat) : String :=
  "sha256=" ++ hmacSha256Hex secret (signMessage body timestamp nowSec)

/-- Model of String.prototype.split with a one-character separator. -/
def splitOnChar (sep : Char) : List Char → List (List Char)
  | [] => [[]]
  | c :: rest =>
    match splitOnChar sep rest with
    | [] => [[]]
    | h :: t => if c = sep then [] :: h :: t else (c :: h) :: t

/-- Model of verify in src/lib/crypto.ts: check the sha256= format, reject
timestamps outside the tolerance window, recompute the expected signature and
compare the hashes (the timing-safe comparison is equality). -/
def verify (signature body secret : String) (timestamp : Option Nat)
    (toleranceSeconds : Nat) (nowSec : Nat) : Bool :=
  match splitOnChar '=' signature.data with
  | [p0, p1] =>
    if p0 = "sha256".data then
      let fresh :=
        match timestamp with
        | some ts => decide (((nowSec : Int) - ts).natAbs ≤ toleranceSeconds)
        | none => true
      if fresh then
        let expected := sign body secret timestamp nowSec
        let e1 := (splitOnChar '=' expected.data).getD 1 []
        decide (p1 = e1)
      else false
    else false
  | _ => false

end WebhookCrypto

/-- Concrete available slot used to evaluate the theorems on closed inputs. -/
def demoSlot : JobSlot :=
  ⟨"s1", "t1", "jp1", 5, .available, none, none, none, none, none, 1, 1⟩

/-- Concrete job post owning demoSlot. -/
def demoPost : JobPost := ⟨"jp1", "t1", "pr1", "interior", "job"⟩

/-- Concrete project owning demoPost. -/
def demoProject : Project := ⟨"pr1", none⟩

/-- Store with one available slot and no claims. -/
def demoDB : DB := ⟨[demoSlot], [], [demoPost], [demoProject], [], []⟩

/-- Claim row recorded for demoSlot by company co1 under request r1. -/
def demoClaimRow : ClaimRow := ⟨"c1", "t1", "s1", "co1", none, "r1", 10⟩

/-- Store after a successful claim of demoSlot: slot stamped, claim recorded. -/
def demoClaimedDB : DB :=
  ⟨[casStamp "co1" none 10 demoSlot], [demoClaimRow], [demoPost], [demoProject], [], []⟩

/-- Claim row already occupying demoSlot under an unrelated request id. -/
def dupSlotClaimRow : ClaimRow := ⟨"c0", "t1", "s1", "co0", none, "r0", 5⟩

/-- Store where the slot is available yet a claim row already references it,
so the claim insert trips the claims.job_slot_id uniqueness constraint. -/
def dupSlotDB : DB := ⟨[demoSlot], [dupSlotClaimRow], [demoPost], [demoProject], [], []⟩

/-- Claim row of another tenant holding the same request id. -/
def dupReqClaimRow : ClaimRow := ⟨"c0", "t2", "s9", "co0", none, "r1", 5⟩

/-- Store where a foreign tenant already used request id r1, so the claim
insert trips the global claims.request_id uniqueness constraint. -/
def dupReqDB : DB := ⟨[demoSlot], [dupReqClaimRow], [demoPost], [demoProject], [], []⟩

/-- Concrete later slot of the same post, one day after demoSlot. -/
def altSlot2 : JobSlot :=
  ⟨"s2", "t1", "jp1", 6, .available, none, none, none, none, none, 2, 2⟩

/-- Concrete later slot of the same post, two days after demoSlot. -/
def altSlot3 : JobSlot :=
  ⟨"s3", "t1", "jp1", 7, .available, none, none, none, none, none, 3, 3⟩

/-- Store for the alternatives query: origin claimed, two available siblings. -/
def altDB : DB :=
  ⟨[casStamp "co1" none 10 demoSlot, altSlot2, altSlot3], [demoClaimRow],
    [demoPost], [demoProject], [], []⟩

theorem find?_eq_some_of_unique {α : Type} (l : List α) (p : α → Bool) (a : α)
    (ha : a ∈ l) (hpa : p a = true) (huniq : ∀ b ∈ l, p b = true → b = a) :
    l.find? p = some a := by
  induction l with
  | nil => cases ha
  | cons x t ih =>
    by_cases hx : p x = true
    · have hxa := huniq x (List.mem_cons_self x t) hx
      subst hxa
      exact List.find?_cons_of_pos t hx
    · rw [List.find?_cons_of_neg t hx]
      rcases List.mem_cons.mp ha with h | h
      · subst h; exact absurd hpa hx
      · exact ih h (fun b hb hpb => huniq b (List.mem_cons_of_mem _ hb) hpb)

theorem any_eq_false_of_forall {α : Type} (l : List α) (p : α → Bool)
    (h : ∀ x ∈ l, ¬ p x = true) : l.any p = false := by
  rw [← Bool.not_eq_true, List.any_eq_true]
  push_neg
  intro x hx
  simpa using h x hx

namespace Outbox

theorem processEvent_sent_of_success (maxRetries : Nat) (e : OutboxEvent)
    (r : WebhookResponse) (nowMs : Nat) (h : sendSuccess r = true) :
    processEvent maxRetries e r nowMs =
      { e with status := OutboxStatus.sent, updated_at := nowMs } := by
  simp [processEvent, h]

theorem dispatchRun_fixed_of_sent (maxRetries : Nat) (respond : Nat → WebhookResponse)
    (e : OutboxEvent) (ticks : List Nat) (h : e.status = OutboxStatus.sent) :
    dispatchRun maxRetries respond e ticks = e := by
  induction ticks with
  | nil => rfl
  | cons t ts ih =>
    have hel : eligible e t = false := by
      simp [eligible, h]
    simp [dispatchRun, List.foldl_cons, dispatchStep, hel]
    simpa [dispatchRun] using ih

theorem dispatchRun_cons (maxRetries : Nat) (respond : Nat → WebhookResponse)
    (e : OutboxEvent) (tk : Nat) (ts : List Nat) :
    dispatchRun maxRetries respond e (tk :: ts) =
      dispatchRun maxRetries respond (dispatchStep maxRetries respond e tk) ts := rfl

theorem afterDeliveries_invariant (maxRetries : Nat) (r : WebhookResponse)
    (times : Nat → Nat) (e0 : OutboxEvent) (hfail : sendSuccess r = false)
    (hrc : e0.retry_count = 0) :
    ∀ k, (afterDeliveries maxRetries r times k e0).retry_count = k ∧
      (afterDeliveries maxRetries r times k e0).status =
        (if k ≤ maxRetries then e0.status else OutboxStatus.failed) ∧
      (1 ≤ k → k ≤ maxRetries →
        (afterDeliveries maxRetries r times k e0).next_attempt_at =
          calculateRetryDelay k (times k)) := by
  intro k
  induction k with
  | zero =>
    refine ⟨hrc, ?_, ?_⟩
    · simp [afterDeliveries]
    · intro h
      exact absurd h (by omega)
  | succ k ih =>
    obtain ⟨ihc, ihs, ihn⟩ := ih
    by_cases hk : maxRetries < k + 1
    · refine ⟨?_, ?_, ?_⟩
      · simp [afterDeliveries, processEvent, hfail, ihc, hk]
      · have hne : ¬ (k + 1 ≤ maxRetries) := by omega
        simp [afterDeliveries, processEvent, hfail, ihc, hk, hne]
      · intro h1 h2
        exact absurd h2 (by omega)
    · refine ⟨?_, ?_, ?_⟩
      · simp [afterDeliveries, processEvent, hfail, ihc, hk]
      · have hk1 : k + 1 ≤ maxRetries := by omega
        have hkk : k ≤ maxRetries := by omega
        simp [afterDeliveries, processEvent, hfail, ihc, hk, hk1]
        simp [hkk] at ihs
        exact ihs
      · intro _ _
        simp [afterDeliveries, processEvent, hfail, ihc, hk, calculateRetryDelay]

end Outbox

/-- C6.  On a delivery failure the worker, with r the retry count plus one,
parks the event as failed with retry_count r when r exceeds max_retries, and
otherwise stores retry_count r and schedules the next attempt at now plus the
delay D[min(r, length D - 1)] of the schedule D = [60s, 300s, 900s, 3600s, 21600s]. -/
theorem claim_C6_retry_backoff (maxRetries : Nat) (e : Outbox.OutboxEvent)
    (r : Outbox.WebhookResponse) (nowMs : Nat)
    (hfail : Outbox.sendSuccess r = false) :
    Outbox.retryDelaysSec = [60, 300, 900, 3600, 21600] ∧
    (maxRetries < e.retry_count + 1 →
      Outbox.processEvent maxRetries e r nowMs =
        { e with
            status := OutboxStatus.failed
            retry_count := e.retry_count + 1
            updated_at := nowMs }) ∧
    (e.retry_count + 1 ≤ maxRetries →
      Outbox.processEvent maxRetries e r nowMs =
        { e with
            retry_count := e.retry_count + 1
            next_attempt_at := nowMs + 1000 *
              Outbox.retryDelaysSec.getD
                (min (e.retry_count + 1) (Outbox.retryDelaysSec.length - 1)) 0
            updated_at := nowMs }) := by
  refine ⟨rfl, ?_, ?_⟩
  · intro h
    simp [Outbox.processEvent, hfail, h]
  · intro h
    have h' : ¬ maxRetries < e.retry_count + 1 := by omega
    simp [Outbox.processEvent, hfail, h', Outbox.calculateRetryDelay]

/-- Witness for C6: a first failure at retry_count 0 with max_retries 5
schedules the retry 300 seconds later (the schedule entry at index
min(1, 4) = 1), and a failure at retry_count 5 parks the event. -/
theorem claim_C6_witness :
    Outbox.processEvent 5 ⟨OutboxStatus.pending, 0, 0, 0⟩
        Outbox.WebhookResponse.transportError 1000 =
      ⟨OutboxStatus.pending, 1, 1000 + 1000 * 300, 1000⟩ ∧
    Outbox.processEvent 5 ⟨OutboxStatus.pending, 5, 0, 0⟩
        Outbox.WebhookResponse.transportError 1000 =
      ⟨OutboxStatus.failed, 6, 0, 1000⟩ := by
  constructor
  · exact (claim_C6_retry_backoff 5 ⟨OutboxStatus.pending, 0, 0, 0⟩
      Outbox.WebhookResponse.transportError 1000 rfl).2.2 (by decide)
  · exact (claim_C6_retry_backoff 5 ⟨OutboxStatus.pending, 5, 0, 0⟩
      Outbox.WebhookResponse.transportError 1000 rfl).2.1 (by decide)

/-- C8 as amended: the worker classifies a delivery outcome only through
response.ok, so every non-2xx status is handled exactly like a transport
failure — it follows the retry schedule instead of parking the event, and
while retry_count + 1 stays within max_retries the status is untouched. -/
theorem claim_C8_uniform_failure_handling (maxRetries : Nat)
    (e : Outbox.OutboxEvent) (s nowMs : Nat) (hs : ¬ (200 ≤ s ∧ s < 300)) :
    Outbox.processEvent maxRetries e (Outbox.WebhookResponse.http s) nowMs =
      Outbox.processEvent maxRetries e Outbox.WebhookResponse.transportError nowMs ∧
    (e.retry_count + 1 ≤ maxRetries →
      (Outbox.processEvent maxRetries e (Outbox.WebhookResponse.http s) nowMs).status
        = e.status ∧
      (Outbox.processEvent maxRetries e (Outbox.WebhookResponse.http s) nowMs).next_attempt_at
        = Outbox.calculateRetryDelay (e.retry_count + 1) nowMs) := by
  have hfail : Outbox.sendSuccess (Outbox.WebhookResponse.http s) = false := by
    simp [Outbox.sendSuccess]
    omega
  have hfail2 : Outbox.sendSuccess Outbox.WebhookResponse.transportError = false := rfl
  constructor
  · simp [Outbox.processEvent, hfail, hfail2]
  · intro h
    have h' : ¬ maxRetries < e.retry_count + 1 := by omega
    constructor <;> simp [Outbox.processEvent, hfail, h']

/-- Witness for C8 as amended: a 404 response behaves like a transport error. -/
theorem claim_C8_witness :
    Outbox.processEvent 5 ⟨OutboxStatus.pending, 0, 0, 0⟩
        (Outbox.WebhookResponse.http 404) 1000 =
      Outbox.processEvent 5 ⟨OutboxStatus.pending, 0, 0, 0⟩
        Outbox.WebhookResponse.transportError 1000 ∧
    (Outbox.processEvent 5 ⟨OutboxStatus.pending, 0, 0, 0⟩
        (Outbox.WebhookResponse.http 404) 1000).status = OutboxStatus.pending := by
  have h := claim_C8_uniform_failure_handling 5 ⟨OutboxStatus.pending, 0, 0, 0⟩
    404 1000 (by omega)
  exact ⟨h.1, (h.2 (by decide)).1⟩

/-- Counterexample to C8 as stated: a 400 response (no 408/429 involved) does
not immediately park the event as failed; the worker schedules a retry 300
seconds later and the status stays pending. -/
theorem claim_C8_counterexample :
    Outbox.processEvent 5 ⟨OutboxStatus.pending, 0, 0, 0⟩
        (Outbox.WebhookResponse.http 400) 1000 =
      ⟨OutboxStatus.pending, 1, 301000, 1000⟩ ∧
    (Outbox.processEvent 5 ⟨OutboxStatus.pending, 0, 0, 0⟩
        (Outbox.WebhookResponse.http 400) 1000).status ≠ OutboxStatus.failed := by
  decide

/-- C7 as amended: against a receiver that always answers 2xx, a pending event
is marked sent at the first poll tick at which it is eligible, and stays sent
(finite time); against a receiver that always fails, a pending event with
retry_count 0 reaches status failed exactly when the number of deliveries
exceeds max_retries — that is, after max_retries + 1 deliveries, not after
max_retries — and each non-final failure i (1 ≤ i ≤ max_retries) schedules the
next attempt through calculateRetryDelay i, the schedule D. -/
theorem claim_C7_delivery_progress (maxRetries : Nat)
    (respond : Nat → Outbox.WebhookResponse) (e0 : Outbox.OutboxEvent)
    (ticks : List Nat) (t : Nat) (times : Nat → Nat) (r : Outbox.WebhookResponse) :
    ((∀ n, Outbox.sendSuccess (respond n) = true) →
      e0.status = OutboxStatus.pending → t ∈ ticks → e0.next_attempt_at ≤ t →
      (Outbox.dispatchRun maxRetries respond e0 ticks).status = OutboxStatus.sent) ∧
    (Outbox.sendSuccess r = false → e0.status = OutboxStatus.pending →
      e0.retry_count = 0 →
      (∀ k, (Outbox.afterDeliveries maxRetries r times k e0).status = OutboxStatus.failed
        ↔ maxRetries + 1 ≤ k) ∧
      (∀ k, 1 ≤ k → k ≤ maxRetries →
        (Outbox.afterDeliveries maxRetries r times k e0).next_attempt_at =
          Outbox.calculateRetryDelay k (times k))) := by
  constructor
  · intro hok hst hmem hel
    induction ticks generalizing e0 with
    | nil => cases hmem
    | cons tk ts ih =>
      by_cases helig : Outbox.eligible e0 tk = true
      · have hsent : (Outbox.processEvent maxRetries e0 (respond tk) tk).status =
            OutboxStatus.sent := by
          rw [Outbox.processEvent_sent_of_success maxRetries e0 (respond tk) tk (hok tk)]
        have hstep : Outbox.dispatchStep maxRetries respond e0 tk =
            Outbox.processEvent maxRetries e0 (respond tk) tk := by
          simp [Outbox.dispatchStep, helig]
        rw [Outbox.dispatchRun_cons, hstep,
          Outbox.dispatchRun_fixed_of_sent maxRetries respond _ ts hsent]
        exact hsent
      · have he0 : Outbox.dispatchStep maxRetries respond e0 tk = e0 := by
          simp [Outbox.dispatchStep, helig]
        rcases List.mem_cons.mp hmem with h | h
        · subst h
          exact absurd (by simp [Outbox.eligible, hst, hel]) helig
        · rw [Outbox.dispatchRun_cons, he0]
          exact ih e0 hst h hel
  · intro hfail hst hrc
    constructor
    · intro k
      obtain ⟨-, hs, -⟩ := Outbox.afterDeliveries_invariant maxRetries r times e0 hfail hrc k
      by_cases hk : k ≤ maxRetries
      · simp [hk, hst] at hs
        rw [hs]
        constructor
        · intro h; cases h
        · intro h; omega
      · simp [hk] at hs
        rw [hs]
        constructor
        · intro _; omega
        · intro _; rfl
    · intro k h1 h2
      exact (Outbox.afterDeliveries_invariant maxRetries r times e0 hfail hrc k).2.2 h1 h2

/-- Witness for C7 as amended: a 200 receiver sends the event at the first
eligible tick; a 500 receiver leaves the event failed after six deliveries at
max_retries 5, with the third failure scheduled through the delay schedule. -/
theorem claim_C7_witness :
    (Outbox.dispatchRun 5 (fun _ => Outbox.WebhookResponse.http 200)
        ⟨OutboxStatus.pending, 0, 0, 0⟩ [7]).status = OutboxStatus.sent ∧
    ((Outbox.afterDeliveries 5 (Outbox.WebhookResponse.http 500) (fun i => 1000 * i) 6
        ⟨OutboxStatus.pending, 0, 0, 0⟩).status = OutboxStatus.failed ↔ 5 + 1 ≤ 6) ∧
    (Outbox.afterDeliveries 5 (Outbox.WebhookResponse.http 500) (fun i => 1000 * i) 3
        ⟨OutboxStatus.pending, 0, 0, 0⟩).next_attempt_at =
      Outbox.calculateRetryDelay 3 (1000 * 3) := by
  have h := claim_C7_delivery_progress 5 (fun _ => Outbox.WebhookResponse.http 200)
    ⟨OutboxStatus.pending, 0, 0, 0⟩ [7] 7 (fun i => 1000 * i)
    (Outbox.WebhookResponse.http 500)
  refine ⟨h.1 (fun n => by decide) rfl (by decide) (by decide), ?_, ?_⟩
  · exact (h.2 (by decide) rfl rfl).1 6
  · exact (h.2 (by decide) rfl rfl).2 3 (by decide) (by decide)

/-- Counterexample to C7 as stated: with the default max_retries of 5 and a
receiver that always answers 500, the event is still not failed after exactly
max_retries = 5 deliveries; it takes a sixth delivery to park it. -/
theorem claim_C7_counterexample :
    (Outbox.afterDeliveries 5 (Outbox.WebhookResponse.http 500) (fun i => 100000 * i) 5
        ⟨OutboxStatus.pending, 0, 0, 0⟩).status ≠ OutboxStatus.failed ∧
    (Outbox.afterDeliveries 5 (Outbox.WebhookResponse.http 500) (fun i => 100000 * i) 6
        ⟨OutboxStatus.pending, 0, 0, 0⟩).status = OutboxStatus.failed := by
  decide

/-- C5.  With a validated days parameter (an integer in 1..30, defaulting to 3
when absent), an alternatives query that resolves its origin slot and job post
returns at most three rows, sorted by work_date ascending with ties broken by
created_at descending, and every row is an available slot of the caller's
tenant, of the origin's project and trade, distinct from the origin, with
work_date within days calendar days of the origin's (inclusive). -/
theorem claim_C5_alternatives (db : DB) (tenantId slotId : String)
    (dOpt : Option Int) (days : Int) (os : JobSlot) (op : JobPost)
    (rows : List AltRow)
    (hdays : parseDaysParam dOpt = some days)
    (hos : db.slots.find? (keyPred slotId tenantId) = some os)
    (hop : db.job_posts.find? (fun p => decide (p.id = os.job_post_id)) = some op)
    (hrows : alternativesGET db tenantId slotId days = some rows) :
    (1 ≤ days ∧ days ≤ 30) ∧
    parseDaysParam none = some 3 ∧
    rows.length ≤ 3 ∧
    rows.Pairwise altLe ∧
    ∀ r ∈ rows,
      (∃ s ∈ db.slots, s.id = r.slot_id ∧ s.tenant_id = tenantId ∧
        s.status = SlotStatus.available ∧ s.work_date = r.work_date) ∧
      (∃ p ∈ db.job_posts, p.id = r.job_post_id ∧ p.project_id = op.project_id ∧
        p.trade = op.trade ∧ r.trade = op.trade) ∧
      r.slot_id ≠ slotId ∧
      os.work_date - days ≤ r.work_date ∧ r.work_date ≤ os.work_date + days := by
  have hbounds : 1 ≤ days ∧ days ≤ 30 := by
    cases dOpt with
    | none =>
      simp [parseDaysParam] at hdays
      omega
    | some d =>
      by_cases hd : 1 ≤ d ∧ d ≤ 30
      · simp [parseDaysParam, hd] at hdays
        omega
      · simp [parseDaysParam, hd] at hdays
  simp only [alternativesGET, hos, Option.some_bind, hop, Option.map_some',
    Option.some.injEq] at hrows
  subst hrows
  refine ⟨hbounds, rfl, ?_, ?_, ?_⟩
  · rw [List.length_take]
    exact min_le_left _ _
  · exact (List.sorted_insertionSort altLe _).sublist (List.take_sublist 3 _)
  · intro r hr
    have hr1 : r ∈ List.insertionSort altLe _ := List.take_subset 3 _ hr
    have hr2 := (List.perm_insertionSort altLe _).mem_iff.mp hr1
    obtain ⟨s, hs, hfs⟩ := List.mem_filterMap.mp hr2
    split at hfs
    · cases hfs
    · rename_i p hfp
      split at hfs
      · rename_i hc
        obtain ⟨hc1, hc2, hc3, hc4, hc5, hc6, hc7⟩ := hc
        cases hfs
        refine ⟨⟨s, hs, rfl, hc7, hc3, rfl⟩, ?_, hc4, hc5, hc6⟩
        exact ⟨p, List.mem_of_find?_eq_some hfp, rfl, hc1, hc2, hc2⟩
      · cases hfs

/-- Witness for C5: on the three-slot store the query returns the two later
available slots, in date order, and the result satisfies the bound and the
ordering. -/
theorem claim_C5_witness :
    ([(⟨"s2", 6, "jp1", "job", "interior", 2⟩ : AltRow),
      ⟨"s3", 7, "jp1", "job", "interior", 3⟩].length ≤ 3) ∧
    List.Pairwise altLe
      [(⟨"s2", 6, "jp1", "job", "interior", 2⟩ : AltRow),
        ⟨"s3", 7, "jp1", "job", "interior", 3⟩] := by
  have h := claim_C5_alternatives altDB "t1" "s1" (some 3) 3
    (casStamp "co1" none 10 demoSlot) demoPost
    [⟨"s2", 6, "jp1", "job", "interior", 2⟩, ⟨"s3", 7, "jp1", "job", "interior", 3⟩]
    (by decide) (by decide) (by decide) (by decide)
  exact ⟨h.2.2.1, h.2.2.2.1⟩

theorem probe_filterMap_nil (db : DB) (requestId tenantId : String)
    (h : ∀ c ∈ db.claims, ¬ (c.request_id = requestId ∧ c.tenant_id = tenantId)) :
    db.claims.filterMap (fun c =>
      if probePred requestId tenantId c then
        (db.slots.find? (fun s => keyPred c.job_slot_id tenantId s)).map (fun s => (c, s))
      else none) = [] := by
  rw [List.filterMap_eq_nil_iff]
  intro c hc
  have hnc := h c hc
  simp [probePred, hnc]

theorem slot_ids_unique_eq (l : List JobSlot)
    (hids : l.Pairwise (fun a b => a.id ≠ b.id))
    (x y : JobSlot) (hx : x ∈ l) (hy : y ∈ l) (hxy : x.id = y.id) : x = y := by
  by_cases hne : x = y
  · exact hne
  · exact absurd hxy (hids.forall (fun a b h => h.symm) hx hy hne)

theorem casStamp_id (companyId : String) (userId : Option String) (now : Nat)
    (x : JobSlot) : (casStamp companyId userId now x).id = x.id := rfl

theorem mapped_slot_id (slotId tenantId companyId : String) (userId : Option String)
    (now : Nat) (x : JobSlot) :
    ((if casPred slotId tenantId x then casStamp companyId userId now x else x)).id
      = x.id := by
  split <;> rfl

/-- C1.  For a fresh request (no claim row carries its request id in the
tenant), the engine's conditional update drives the outcome: when no slot with
the given id exists in the tenant the route answers error kind NOT_FOUND
(status 404); when the slot exists but is not available it answers
ALREADY_CLAIMED with status 409 and the store is untouched; when the slot is
available (and the claim insert meets no uniqueness violation) the slot row —
and only that row — is flipped to claimed with claimed_by_company,
claimed_by_user and claimed_at stamped, and a claim row is recorded. -/
theorem claim_C1_conditional_update (db : DB) (tenantId : String)
    (userId : Option String) (slotId companyId requestId : String) (now : Nat)
    (claimId eventId payloadId : String)
    (hids : db.slots.Pairwise (fun a b => a.id ≠ b.id))
    (hprobe : ∀ c ∈ db.claims, ¬ (c.request_id = requestId ∧ c.tenant_id = tenantId)) :
    ((∀ s ∈ db.slots, ¬ (s.id = slotId ∧ s.tenant_id = tenantId)) →
      claimRoute db tenantId userId slotId companyId requestId now claimId eventId payloadId =
        (.err "NOT_FOUND" "Resource not found" 404, db)) ∧
    (∀ s ∈ db.slots, s.id = slotId → s.tenant_id = tenantId →
      s.status ≠ SlotStatus.available →
      claimRoute db tenantId userId slotId companyId requestId now claimId eventId payloadId =
        (.err "ALREADY_CLAIMED" "This slot has been claimed by someone else." 409, db)) ∧
    (∀ s ∈ db.slots, s.id = slotId → s.tenant_id = tenantId →
      s.status = SlotStatus.available →
      (∀ c ∈ db.claims, c.request_id ≠ requestId) →
      (∀ c ∈ db.claims, c.job_slot_id ≠ slotId) →
      claimRoute db tenantId userId slotId companyId requestId now claimId eventId payloadId =
        (.ok ⟨s.id, SlotStatus.claimed, s.work_date⟩ ⟨claimId, companyId, userId, now⟩,
          { db with
              slots := db.slots.map (fun x =>
                if casPred slotId tenantId x then casStamp companyId userId now x else x)
              claims := db.claims ++
                [⟨claimId, tenantId, slotId, companyId, userId, requestId, now⟩]
              outbox := db.outbox ++
                [claimOutboxRow db tenantId slotId companyId userId now claimId eventId payloadId s]
              audit := db.audit ++
                [claimAuditRow tenantId slotId companyId requestId userId now] }) ∧
      (∀ x ∈ db.slots, x.id ≠ slotId →
        x ∈ db.slots.map (fun x =>
          if casPred slotId tenantId x then casStamp companyId userId now x else x)) ∧
      casStamp companyId userId now s ∈ db.slots.map (fun x =>
        if casPred slotId tenantId x then casStamp companyId userId now x else x)) := by
  have hnil := probe_filterMap_nil db requestId tenantId hprobe
  refine ⟨?_, ?_, ?_⟩
  · intro hA
    have h1 : db.slots.find? (casPred slotId tenantId) = none := by
      rw [List.find?_eq_none]
      intro x hx
      have := hA x hx
      simp only [casPred, decide_eq_true_eq]
      rintro ⟨a, b, -⟩
      exact this ⟨a, b⟩
    have h2 : db.slots.find? (keyPred slotId tenantId) = none := by
      rw [List.find?_eq_none]
      intro x hx
      have := hA x hx
      simp only [keyPred, decide_eq_true_eq]
      exact this
    have hh : handleApiError "Slot not found or access denied" =
        ("NOT_FOUND", "Resource not found", 404) := by decide
    simp [claimRoute, claimTx, hnil, h1, h2, hh]
  · intro s hmem hid htid hstatus
    have h1 : db.slots.find? (casPred slotId tenantId) = none := by
      rw [List.find?_eq_none]
      intro x hx
      simp only [casPred, decide_eq_true_eq]
      rintro ⟨a, b, hav⟩
      have hx_s : x = s := slot_ids_unique_eq db.slots hids x s hx hmem (a.trans hid.symm)
      subst hx_s
      exact hstatus hav
    cases hk : db.slots.find? (keyPred slotId tenantId) with
    | none =>
      have := List.find?_eq_none.mp hk s hmem
      simp only [keyPred, decide_eq_true_eq] at this
      exact absurd ⟨hid, htid⟩ this
    | some y =>
      simp [claimRoute, claimTx, hnil, h1, hk]
  · intro s hmem hid htid hstatus hreq hslot
    have hpred : casPred slotId tenantId s = true := by
      simp [casPred, decide_eq_true_eq]
      exact ⟨hid, htid, hstatus⟩
    have hfind : db.slots.find? (casPred slotId tenantId) = some s := by
      apply find?_eq_some_of_unique db.slots _ s hmem hpred
      intro b hb hpb
      simp only [casPred, decide_eq_true_eq] at hpb
      exact slot_ids_unique_eq db.slots hids b s hb hmem (hpb.1.trans hid.symm)
    have hany1 : db.claims.any (reqDupPred requestId) = false := by
      apply any_eq_false_of_forall
      intro c hc
      simp [reqDupPred, decide_eq_true_eq]
      exact hreq c hc
    have hany2 : db.claims.any (slotDupPred slotId) = false := by
      apply any_eq_false_of_forall
      intro c hc
      simp [slotDupPred, decide_eq_true_eq]
      exact hslot c hc
    refine ⟨?_, ?_, ?_⟩
    · simp [claimRoute, claimTx, hnil, hfind, hany1, hany2, casStamp]
    · intro x hx hxid
      have hnp : casPred slotId tenantId x = false := by
        simp [casPred, decide_eq_true_eq]
        intro h1
        exact absurd h1 hxid
      refine List.mem_map.mpr ⟨x, hx, ?_⟩
      rw [hnp]
      simp
    · exact List.mem_map.mpr ⟨s, hmem, by rw [hpred]; simp⟩

/-- Witness for C1: on the one-slot store the fresh claim succeeds with the
stamped slot and recorded claim, a second attempt on the now-claimed slot
answers ALREADY_CLAIMED 409, and an unknown slot id answers NOT_FOUND 404. -/
theorem claim_C1_witness :
    claimRoute demoDB "t1" none "s1" "co1" "r1" 10 "c1" "e1" "p1" =
      (.ok ⟨"s1", SlotStatus.claimed, 5⟩ ⟨"c1", "co1", none, 10⟩,
        { demoDB with
            slots := demoDB.slots.map (fun x =>
              if casPred "s1" "t1" x then casStamp "co1" none 10 x else x)
            claims := demoDB.claims ++ [⟨"c1", "t1", "s1", "co1", none, "r1", 10⟩]
            outbox := demoDB.outbox ++
              [claimOutboxRow demoDB "t1" "s1" "co1" none 10 "c1" "e1" "p1" demoSlot]
            audit := demoDB.audit ++ [claimAuditRow "t1" "s1" "co1" "r1" none 10] }) ∧
    claimRoute demoClaimedDB "t1" none "s1" "co2" "r2" 11 "c2" "e2" "p2" =
      (.err "ALREADY_CLAIMED" "This slot has been claimed by someone else." 409,
        demoClaimedDB) ∧
    claimRoute demoDB "t1" none "sX" "co1" "r9" 10 "c9" "e9" "p9" =
      (.err "NOT_FOUND" "Resource not found" 404, demoDB) := by
  refine ⟨?_, ?_, ?_⟩
  · exact ((claim_C1_conditional_update demoDB "t1" none "s1" "co1" "r1" 10 "c1" "e1" "p1"
      (by decide) (by decide)).2.2 demoSlot (by decide) rfl rfl rfl (by decide)
      (by decide)).1
  · exact (claim_C1_conditional_update demoClaimedDB "t1" none "s1" "co2" "r2" 11 "c2" "e2" "p2"
      (by decide) (by decide)).2.1 (casStamp "co1" none 10 demoSlot) (by decide) rfl rfl
      (by decide)
  · exact (claim_C1_conditional_update demoDB "t1" none "sX" "co1" "r9" 10 "c9" "e9" "p9"
      (by decide) (by decide)).1 (by decide)

/-- C2.  Replaying a claim request that already produced a 200 — with the same
slotId, companyId and requestId against the store the first call left behind —
returns the very same slot and claim views (in particular the same slot.id and
claim.id) and leaves the store untouched: no slot update, no claim row, no
outbox row, no audit row. -/
theorem claim_C2_idempotent_replay (db : DB) (tenantId : String)
    (userId : Option String) (slotId companyId requestId : String)
    (now1 now2 : Nat) (claimId1 eventId1 payloadId1 claimId2 eventId2 payloadId2 : String)
    (sv : SlotView) (cv : ClaimView) (db1 : DB)
    (hids : db.slots.Pairwise (fun a b => a.id ≠ b.id))
    (h1 : claimRoute db tenantId userId slotId companyId requestId now1
        claimId1 eventId1 payloadId1 = (.ok sv cv, db1)) :
    claimRoute db1 tenantId userId slotId companyId requestId now2
      claimId2 eventId2 payloadId2 = (.ok sv cv, db1) := by
  cases hp : db.claims.filterMap (fun c =>
      if probePred requestId tenantId c then
        (db.slots.find? (fun s => keyPred c.job_slot_id tenantId s)).map (fun s => (c, s))
      else none) with
  | cons hd tl =>
    obtain ⟨c, s⟩ := hd
    simp only [claimRoute, claimTx, hp] at h1
    simp only [Prod.mk.injEq, ClaimApiResult.ok.injEq] at h1
    obtain ⟨⟨hsv, hcv⟩, hdb⟩ := h1
    subst hsv
    subst hcv
    subst hdb
    simp only [claimRoute, claimTx, hp]
  | nil =>
    cases hcas : db.slots.find? (casPred slotId tenantId) with
    | none =>
      cases hk : db.slots.find? (keyPred slotId tenantId) with
      | none => simp [claimRoute, claimTx, hp, hcas, hk] at h1
      | some y => simp [claimRoute, claimTx, hp, hcas, hk] at h1
    | some s0 =>
      cases hany1 : db.claims.any (reqDupPred requestId) with
      | true => simp [claimRoute, claimTx, hp, hcas, hany1] at h1
      | false =>
        cases hany2 : db.claims.any (slotDupPred slotId) with
        | true => simp [claimRoute, claimTx, hp, hcas, hany1, hany2] at h1
        | false =>
          simp only [claimRoute, claimTx, hp, hcas, hany1, hany2,
            Bool.false_eq_true, if_false, Prod.mk.injEq, ClaimApiResult.ok.injEq] at h1
          obtain ⟨⟨hsv, hcv⟩, hdb⟩ := h1
          subst hsv
          subst hcv
          subst hdb
          have hcasS : casPred slotId tenantId s0 = true := List.find?_some hcas
          have hs0mem : s0 ∈ db.slots := List.mem_of_find?_eq_some hcas
          have hkeys : s0.id = slotId ∧ s0.tenant_id = tenantId ∧
              s0.status = SlotStatus.available := by
            simpa [casPred, decide_eq_true_eq] using hcasS
          have hreq : ∀ c ∈ db.claims, c.request_id ≠ requestId := by
            intro c hc h
            have : db.claims.any (reqDupPred requestId) = true :=
              List.any_eq_true.mpr ⟨c, hc, by simp [reqDupPred, h]⟩
            rw [hany1] at this
            cases this
          have hstampedMem :
              casStamp companyId userId now1 s0 ∈ db.slots.map (fun x =>
                if casPred slotId tenantId x then casStamp companyId userId now1 x else x) :=
            List.mem_map.mpr ⟨s0, hs0mem, by simp [hcasS]⟩
          have hfind1 : (db.slots.map (fun x =>
              if casPred slotId tenantId x then casStamp companyId userId now1 x else x)).find?
                (fun s => keyPred slotId tenantId s) =
              some (casStamp companyId userId now1 s0) := by
            apply find?_eq_some_of_unique _ _ _ hstampedMem
            · simp [keyPred, decide_eq_true_eq, casStamp, hkeys.1, hkeys.2.1]
            · intro y hy hky
              obtain ⟨x, hx, hxy⟩ := List.mem_map.mp hy
              simp only [keyPred, decide_eq_true_eq] at hky
              have hyid : y.id = x.id := by rw [← hxy]; exact mapped_slot_id _ _ _ _ _ x
              have hxid : x.id = slotId := by rw [← hyid]; exact hky.1
              have hxs0 : x = s0 :=
                slot_ids_unique_eq db.slots hids x s0 hx hs0mem (hxid.trans hkeys.1.symm)
              subst hxs0
              rw [← hxy, hcasS]
              simp
          have hprobe1 : (db.claims ++
              [(⟨claimId1, tenantId, slotId, companyId, userId, requestId, now1⟩ : ClaimRow)]).filterMap
                (fun c =>
                  if probePred requestId tenantId c then
                    ((db.slots.map (fun x =>
                      if casPred slotId tenantId x then casStamp companyId userId now1 x else x)).find?
                        (fun s => keyPred c.job_slot_id tenantId s)).map (fun s => (c, s))
                  else none) =
              [(⟨claimId1, tenantId, slotId, companyId, userId, requestId, now1⟩,
                casStamp companyId userId now1 s0)] := by
            rw [List.filterMap_append]
            have hleft : db.claims.filterMap (fun c =>
                if probePred requestId tenantId c then
                  ((db.slots.map (fun x =>
                    if casPred slotId tenantId x then casStamp companyId userId now1 x else x)).find?
                      (fun s => keyPred c.job_slot_id tenantId s)).map (fun s => (c, s))
                else none) = [] := by
              rw [List.filterMap_eq_nil_iff]
              intro c hc
              have := hreq c hc
              simp [probePred, this]
            rw [hleft]
            simp [probePred, hfind1, -List.find?_map]
          simp only [claimRoute, claimTx, hprobe1]

/-- Witness for C2: on the already-claimed store a replay of request r1
returns the stored views and the unchanged store, applied to the recorded
first call with fresh timestamps and identifiers. -/
theorem claim_C2_witness :
    claimRoute demoClaimedDB "t1" none "s1" "co1" "r1" 99 "cX" "eX" "pX" =
      (.ok ⟨"s1", SlotStatus.claimed, 5⟩ ⟨"c1", "co1", none, 10⟩, demoClaimedDB) := by
  exact claim_C2_idempotent_replay demoClaimedDB "t1" none "s1" "co1" "r1" 50 99
    "cY" "eY" "pY" "cX" "eX" "pX" ⟨"s1", SlotStatus.claimed, 5⟩ ⟨"c1", "co1", none, 10⟩
    demoClaimedDB (by decide) (by decide)

/-- C3 as amended: a uniqueness violation during the claim-row insert — on
request_id as much as on the slot — aborts the transaction (the store rolls
back) and surfaces through the generic error handler as HTTP 409 with code
DUPLICATE_ENTRY.  The engine neither re-reads the winning sibling nor answers
ALREADY_CLAIMED. -/
theorem claim_C3_duplicate_key_handling (db : DB) (tenantId : String)
    (userId : Option String) (slotId companyId requestId : String) (now : Nat)
    (claimId eventId payloadId : String) (s : JobSlot)
    (hids : db.slots.Pairwise (fun a b => a.id ≠ b.id))
    (hprobe : ∀ c ∈ db.claims, ¬ (c.request_id = requestId ∧ c.tenant_id = tenantId))
    (hmem : s ∈ db.slots) (hid : s.id = slotId) (htid : s.tenant_id = tenantId)
    (hav : s.status = SlotStatus.available) :
    ((∃ c ∈ db.claims, c.request_id = requestId) →
      claimRoute db tenantId userId slotId companyId requestId now claimId eventId payloadId =
        (.err "DUPLICATE_ENTRY" "Resource already exists" 409, db)) ∧
    ((∀ c ∈ db.claims, c.request_id ≠ requestId) →
      (∃ c ∈ db.claims, c.job_slot_id = slotId) →
      claimRoute db tenantId userId slotId companyId requestId now claimId eventId payloadId =
        (.err "DUPLICATE_ENTRY" "Resource already exists" 409, db)) := by
  have hnil := probe_filterMap_nil db requestId tenantId hprobe
  have hpred : casPred slotId tenantId s = true := by
    simp [casPred, decide_eq_true_eq]
    exact ⟨hid, htid, hav⟩
  have hfind : db.slots.find? (casPred slotId tenantId) = some s := by
    apply find?_eq_some_of_unique db.slots _ s hmem hpred
    intro b hb hpb
    simp only [casPred, decide_eq_true_eq] at hpb
    exact slot_ids_unique_eq db.slots hids b s hb hmem (hpb.1.trans hid.symm)
  constructor
  · rintro ⟨c, hc, hcr⟩
    have hany1 : db.claims.any (reqDupPred requestId) = true :=
      List.any_eq_true.mpr ⟨c, hc, by simp [reqDupPred, hcr]⟩
    have hmsg : handleApiError
        "duplicate key value violates unique constraint claims_request_id_key" =
        ("DUPLICATE_ENTRY", "Resource already exists", 409) := by decide
    simp [claimRoute, claimTx, hnil, hfind, hany1, hmsg]
  · rintro hreq ⟨c, hc, hcs⟩
    have hany1 : db.claims.any (reqDupPred requestId) = false := by
      apply any_eq_false_of_forall
      intro x hx
      simp [reqDupPred, decide_eq_true_eq]
      exact hreq x hx
    have hany2 : db.claims.any (slotDupPred slotId) = true :=
      List.any_eq_true.mpr ⟨c, hc, by simp [slotDupPred, hcs]⟩
    have hmsg : handleApiError
        "duplicate key value violates unique constraint claims_job_slot_id_key" =
        ("DUPLICATE_ENTRY", "Resource already exists", 409) := by decide
    simp [claimRoute, claimTx, hnil, hfind, hany1, hany2, hmsg]

/-- Witness for C3 as amended: a cross-tenant request_id collision and a
pre-existing claim on the slot both come back as DUPLICATE_ENTRY 409 with the
store rolled back. -/
theorem claim_C3_witness :
    claimRoute dupReqDB "t1" none "s1" "co1" "r1" 10 "c1" "e1" "p1" =
      (.err "DUPLICATE_ENTRY" "Resource already exists" 409, dupReqDB) ∧
    claimRoute dupSlotDB "t1" none "s1" "co1" "r1" 10 "c1" "e1" "p1" =
      (.err "DUPLICATE_ENTRY" "Resource already exists" 409, dupSlotDB) := by
  constructor
  · exact (claim_C3_duplicate_key_handling dupReqDB "t1" none "s1" "co1" "r1" 10
      "c1" "e1" "p1" demoSlot (by decide) (by decide) (by decide) rfl rfl rfl).1
      ⟨dupReqClaimRow, by decide, rfl⟩
  · exact (claim_C3_duplicate_key_handling dupSlotDB "t1" none "s1" "co1" "r1" 10
      "c1" "e1" "p1" demoSlot (by decide) (by decide) (by decide) rfl rfl rfl).2
      (by decide) ⟨dupSlotClaimRow, by decide, rfl⟩

/-- Counterexample to C3 as stated: when the insert hits the request_id
uniqueness constraint (a sibling of another tenant holds r1) the route answers
DUPLICATE_ENTRY 409 — not the sibling's stored 200 result — and when it hits
the slot uniqueness constraint the code is DUPLICATE_ENTRY, not the
ALREADY_CLAIMED the claim demands. -/
theorem claim_C3_counterexample :
    claimRoute dupReqDB "t1" none "s1" "co1" "r1" 10 "c1" "e1" "p1" =
      (.err "DUPLICATE_ENTRY" "Resource already exists" 409, dupReqDB) ∧
    (claimRoute dupSlotDB "t1" none "s1" "co1" "r1" 10 "c1" "e1" "p1").1 =
      .err "DUPLICATE_ENTRY" "Resource already exists" 409 ∧
    (claimRoute dupSlotDB "t1" none "s1" "co1" "r1" 10 "c1" "e1" "p1").1 ≠
      .err "ALREADY_CLAIMED" "This slot has been claimed by someone else." 409 := by
  decide

/-- C4 as amended: a successful cancel transaction updates the slot and
appends exactly one audit row with action cancel; it enqueues no outbox event
at all — in particular no claim.cancelled event — and leaves the claims table
untouched. -/
theorem claim_C4_cancel_writes_no_outbox (db : DB) (tenantId : String)
    (userId : Option String) (slotId : String) (reason : CancelReason) (now : Nat)
    (v : CancelSlotView) (db1 : DB)
    (h : cancelRoute db tenantId userId slotId reason now = (.ok v, db1)) :
    db1.outbox = db.outbox ∧ db1.claims = db.claims ∧
    ∃ a, db1.audit = db.audit ++ [a] ∧ a.action = "cancel" := by
  cases hs : db.slots.find? (keyPred slotId tenantId) with
  | none => simp [cancelRoute, cancelTx, hs] at h
  | some s =>
    by_cases hst : s.status = SlotStatus.claimed
    · cases hcr : db.claims.find? (claimOfSlotPred slotId tenantId) with
      | none => simp [cancelRoute, cancelTx, hs, hst, hcr] at h
      | some c =>
        cases hc2 : db.slots.find? (cancelPred slotId tenantId) with
        | none => simp [cancelRoute, cancelTx, hs, hst, hcr, hc2] at h
        | some s0 =>
          simp only [cancelRoute, cancelTx, hs, hst, hcr, hc2, if_true, if_pos,
            Prod.mk.injEq, CancelApiResult.ok.injEq] at h
          obtain ⟨-, hdb⟩ := h
          subst hdb
          exact ⟨rfl, rfl, ⟨_, rfl, rfl⟩⟩
    · cases hsv : s.status with
      | available => simp [cancelRoute, cancelTx, hs, hst, hsv] at h
      | claimed => exact absurd hsv hst
      | cancelled => simp [cancelRoute, cancelTx, hs, hst, hsv] at h
      | completed => simp [cancelRoute, cancelTx, hs, hst, hsv] at h

/-- Witness for C4 as amended: cancelling the claimed demo slot leaves the
outbox and the claims table exactly as they were. -/
theorem claim_C4_witness :
    (cancelRoute demoClaimedDB "t1" none "s1" CancelReason.weather 20).2.outbox =
      demoClaimedDB.outbox ∧
    (cancelRoute demoClaimedDB "t1" none "s1" CancelReason.weather 20).2.claims =
      demoClaimedDB.claims := by
  have h := claim_C4_cancel_writes_no_outbox demoClaimedDB "t1" none "s1"
    CancelReason.weather 20 ⟨"s1", SlotStatus.cancelled, 20, CancelReason.weather⟩
    (cancelRoute demoClaimedDB "t1" none "s1" CancelReason.weather 20).2 (by decide)
  exact ⟨h.1, h.2.1⟩

/-- Counterexample to C4 as stated: the cancel of the claimed demo slot
succeeds, yet the resulting outbox is empty — no claim.cancelled event (nor
any other event) was enqueued by the cancelling transaction. -/
theorem claim_C4_counterexample :
    (cancelRoute demoClaimedDB "t1" none "s1" CancelReason.weather 20).1 =
      .ok ⟨"s1", SlotStatus.cancelled, 20, CancelReason.weather⟩ ∧
    (cancelRoute demoClaimedDB "t1" none "s1" CancelReason.weather 20).2.outbox = [] := by
  decide

/-- C10.  A successful cancel writes only status, canceled_at, cancel_reason
and updated_at on the slot: claimed_by_company, claimed_by_user and claimed_at
keep the values stamped at claim time, rows of other ids are untouched, and
the claims table is neither modified nor deleted from. -/
theorem claim_C10_cancel_frame (db : DB) (tenantId : String)
    (userId : Option String) (slotId : String) (reason : CancelReason) (now : Nat)
    (v : CancelSlotView) (db1 : DB)
    (h : cancelRoute db tenantId userId slotId reason now = (.ok v, db1)) :
    db1.claims = db.claims ∧
    (∀ x : JobSlot,
      (cancelStamp reason now x).claimed_by_company = x.claimed_by_company ∧
      (cancelStamp reason now x).claimed_by_user = x.claimed_by_user ∧
      (cancelStamp reason now x).claimed_at = x.claimed_at ∧
      (cancelStamp reason now x).id = x.id ∧
      (cancelStamp reason now x).tenant_id = x.tenant_id ∧
      (cancelStamp reason now x).job_post_id = x.job_post_id ∧
      (cancelStamp reason now x).work_date = x.work_date ∧
      (cancelStamp reason now x).created_at = x.created_at ∧
      (cancelStamp reason now x).status = SlotStatus.cancelled ∧
      (cancelStamp reason now x).canceled_at = some now ∧
      (cancelStamp reason now x).cancel_reason = some reason ∧
      (cancelStamp reason now x).updated_at = now) ∧
    db1.slots = db.slots.map (fun x =>
      if cancelPred slotId tenantId x then cancelStamp reason now x else x) ∧
    (∀ x ∈ db.slots, x.id ≠ slotId → x ∈ db1.slots) ∧
    (∃ s ∈ db.slots, s.id = slotId ∧ s.tenant_id = tenantId ∧
      s.status = SlotStatus.claimed ∧ cancelStamp reason now s ∈ db1.slots) := by
  cases hs : db.slots.find? (keyPred slotId tenantId) with
  | none => simp [cancelRoute, cancelTx, hs] at h
  | some s =>
    by_cases hst : s.status = SlotStatus.claimed
    · cases hcr : db.claims.find? (claimOfSlotPred slotId tenantId) with
      | none => simp [cancelRoute, cancelTx, hs, hst, hcr] at h
      | some c =>
        cases hc2 : db.slots.find? (cancelPred slotId tenantId) with
        | none => simp [cancelRoute, cancelTx, hs, hst, hcr, hc2] at h
        | some s0 =>
          simp only [cancelRoute, cancelTx, hs, hst, hcr, hc2, if_true, if_pos,
            Prod.mk.injEq, CancelApiResult.ok.injEq] at h
          obtain ⟨-, hdb⟩ := h
          subst hdb
          have hp0 : cancelPred slotId tenantId s0 = true := List.find?_some hc2
          have hkeys : s0.id = slotId ∧ s0.tenant_id = tenantId ∧
              s0.status = SlotStatus.claimed := by
            simpa [cancelPred, decide_eq_true_eq] using hp0
          refine ⟨rfl, fun x => ⟨rfl, rfl, rfl, rfl, rfl, rfl, rfl, rfl, rfl, rfl, rfl, rfl⟩,
            rfl, ?_, ?_⟩
          · intro x hx hxid
            have hnp : cancelPred slotId tenantId x = false := by
              simp [cancelPred, decide_eq_true_eq]
              intro h1
              exact absurd h1 hxid
            refine List.mem_map.mpr ⟨x, hx, ?_⟩
            rw [hnp]
            simp
          · refine ⟨s0, List.mem_of_find?_eq_some hc2, hkeys.1, hkeys.2.1, hkeys.2.2, ?_⟩
            exact List.mem_map.mpr ⟨s0, List.mem_of_find?_eq_some hc2, by rw [hp0]; simp⟩
    · cases hsv : s.status with
      | available => simp [cancelRoute, cancelTx, hs, hst, hsv] at h
      | claimed => exact absurd hsv hst
      | cancelled => simp [cancelRoute, cancelTx, hs, hst, hsv] at h
      | completed => simp [cancelRoute, cancelTx, hs, hst, hsv] at h

/-- Witness for C10: cancelling the claimed demo slot preserves the claims
table and keeps claimed_by_company on the stamped slot. -/
theorem claim_C10_witness :
    (cancelRoute demoClaimedDB "t1" none "s1" CancelReason.weather 20).2.claims =
      demoClaimedDB.claims ∧
    (cancelStamp CancelReason.weather 20 (casStamp "co1" none 10 demoSlot)).claimed_by_company =
      (casStamp "co1" none 10 demoSlot).claimed_by_company := by
  have h := claim_C10_cancel_frame demoClaimedDB "t1" none "s1" CancelReason.weather 20
    ⟨"s1", SlotStatus.cancelled, 20, CancelReason.weather⟩
    (cancelRoute demoClaimedDB "t1" none "s1" CancelReason.weather 20).2 (by decide)
  exact ⟨h.1, (h.2.1 (casStamp "co1" none 10 demoSlot)).1⟩

namespace WebhookCrypto

theorem string_data_inj (s t : String) (h : s.data = t.data) : s = t := by
  cases s
  cases t
  exact congrArg String.mk h

theorem rep_b_cancel : ∀ (m n : Nat) (x y : List Char),
    List.replicate m 'a' ++ 'b' :: x = List.replicate n 'a' ++ 'b' :: y →
    m = n ∧ x = y := by
  intro m
  induction m with
  | zero =>
    intro n x y h
    cases n with
    | zero => simpa using h
    | succ n =>
      rw [List.replicate_zero, List.nil_append, List.replicate_succ,
        List.cons_append] at h
      have hb := (List.cons.injEq _ _ _ _).mp h |>.1
      exact absurd hb (by decide)
  | succ m ih =>
    intro n x y h
    cases n with
    | zero =>
      rw [List.replicate_succ, List.cons_append, List.replicate_zero,
        List.nil_append] at h
      have hb := (List.cons.injEq _ _ _ _).mp h |>.1
      exact absurd hb (by decide)
    | succ n =>
      rw [List.replicate_succ, List.replicate_succ, List.cons_append,
        List.cons_append] at h
      have ht := (List.cons.injEq _ _ _ _).mp h |>.2
      obtain ⟨h1, h2⟩ := ih n x y ht
      exact ⟨by omega, h2⟩

theorem encodeChars_inj : ∀ l1 l2 : List Char, encodeChars l1 = encodeChars l2 →
    l1 = l2 := by
  intro l1
  induction l1 with
  | nil =>
    intro l2 h
    cases l2 with
    | nil => rfl
    | cons d u =>
      have hlen := congrArg List.length h
      simp [encodeChars, encChar] at hlen
      omega
  | cons c t ih =>
    intro l2 h
    cases l2 with
    | nil =>
      have hlen := congrArg List.length h
      simp [encodeChars, encChar] at hlen
    | cons d u =>
      simp only [encodeChars, encChar, List.append_assoc, List.singleton_append] at h
      obtain ⟨hmn, ht⟩ := rep_b_cancel c.toNat d.toNat (encodeChars t) (encodeChars u) h
      have hcd : c = d := Char.ext (UInt32.ext hmn)
      subst hcd
      rw [ih u ht]

theorem encodeChars_chars : ∀ (l : List Char), ∀ c' ∈ encodeChars l,
    c' = 'a' ∨ c' = 'b' := by
  intro l
  induction l with
  | nil =>
    intro c' h
    simp [encodeChars] at h
  | cons c t ih =>
    intro c' h
    simp only [encodeChars, encChar, List.append_assoc, List.singleton_append,
      List.mem_append, List.mem_cons] at h
    rcases h with h1 | h1 | h1
    · exact Or.inl (List.eq_of_mem_replicate h1)
    · exact Or.inr h1
    · exact ih c' h1

theorem eq_not_mem_hmac (secret message : String) :
    '=' ∉ (hmacSha256Hex secret message).data := by
  intro h
  rw [show (hmacSha256Hex secret message).data =
      encodeChars secret.data ++ 'c' :: encodeChars message.data from rfl] at h
  rcases List.mem_append.mp h with h1 | h1
  · rcases encodeChars_chars _ '=' h1 with h2 | h2 <;> exact absurd h2 (by decide)
  · rcases List.mem_cons.mp h1 with h2 | h2
    · exact absurd h2 (by decide)
    · rcases encodeChars_chars _ '=' h2 with h3 | h3 <;> exact absurd h3 (by decide)

theorem hmac_msg_inj (secret m1 m2 : String)
    (h : hmacSha256Hex secret m1 = hmacSha256Hex secret m2) : m1 = m2 := by
  have hd : encodeChars secret.data ++ 'c' :: encodeChars m1.data =
      encodeChars secret.data ++ 'c' :: encodeChars m2.data := congrArg String.data h
  have h2 := List.append_cancel_left hd
  have h3 := (List.cons.injEq _ _ _ _).mp h2 |>.2
  exact string_data_inj m1 m2 (encodeChars_inj _ _ h3)

theorem splitOnChar_not_mem (sep : Char) : ∀ l : List Char, sep ∉ l →
    splitOnChar sep l = [l] := by
  intro l
  induction l with
  | nil => intro _; rfl
  | cons c t ih =>
    intro h
    have hc : ¬ c = sep := fun he => h (he ▸ List.mem_cons_self c t)
    have ht : sep ∉ t := fun hm => h (List.mem_cons_of_mem c hm)
    simp only [splitOnChar, ih ht]
    rw [if_neg hc]

theorem splitOnChar_tag (sep : Char) : ∀ (x y : List Char), sep ∉ x → sep ∉ y →
    splitOnChar sep (x ++ sep :: y) = [x, y] := by
  intro x
  induction x with
  | nil =>
    intro y hx hy
    show splitOnChar sep (sep :: y) = [[], y]
    rw [show splitOnChar sep (sep :: y) =
        (match splitOnChar sep y with
          | [] => [[]]
          | h :: t' => if sep = sep then [] :: h :: t' else (sep :: h) :: t') from rfl]
    rw [splitOnChar_not_mem sep y hy]
    simp
  | cons c t ih =>
    intro y hx hy
    have hc : ¬ c = sep := fun he => hx (he ▸ List.mem_cons_self c t)
    have ht : sep ∉ t := fun hm => hx (List.mem_cons_of_mem c hm)
    show splitOnChar sep (c :: (t ++ sep :: y)) = [c :: t, y]
    rw [show splitOnChar sep (c :: (t ++ sep :: y)) =
        (match splitOnChar sep (t ++ sep :: y) with
          | [] => [[]]
          | h :: t' => if c = sep then [] :: h :: t' else (c :: h) :: t') from rfl]
    rw [ih y ht hy]
    simp [hc]

theorem sign_data (body secret : String) (timestamp : Option Nat) (nowSec : Nat) :
    (sign body secret timestamp nowSec).data =
      "sha256".data ++ '=' ::
        (hmacSha256Hex secret (signMessage body timestamp nowSec)).data := by
  show ("sha256=" ++ hmacSha256Hex secret (signMessage body timestamp nowSec)).data = _
  rw [String.data_append]
  rw [show "sha256=".data = "sha256".data ++ ['='] from rfl]
  rw [List.append_assoc]
  rfl

theorem split_sign (body secret : String) (timestamp : Option Nat) (nowSec : Nat) :
    splitOnChar '=' (sign body secret timestamp nowSec).data =
      ["sha256".data, (hmacSha256Hex secret (signMessage body timestamp nowSec)).data] := by
  rw [sign_data]
  exact splitOnChar_tag '=' _ _ (by decide)
    (eq_not_mem_hmac secret (signMessage body timestamp nowSec))

theorem signMessage_inj_body (b b' : String) (timestamp : Option Nat) (nowSec : Nat)
    (h : signMessage b timestamp nowSec = signMessage b' timestamp nowSec) : b = b' := by
  unfold signMessage at h
  have hd := congrArg String.data h
  simp only [String.data_append, List.append_assoc] at hd
  have h2 := List.append_cancel_left hd
  have h3 := List.append_cancel_left h2
  exact string_data_inj b b' h3

end WebhookCrypto

/-- C9.  The signature utilities round-trip: a signature produced by sign for
body b, secret s and timestamp t verifies against the same data whenever t is
within the 300-second replay window of the current time; verification fails
against any different body; and verification fails for any claimed timestamp
lying more than 300 seconds from the current time — in particular at t + 400
when the signature was fresh at t. -/
theorem claim_C9_signature_roundtrip (b b' s : String) (t t' now : Nat) :
    (((now : Int) - t).natAbs ≤ 300 →
      WebhookCrypto.verify (WebhookCrypto.sign b s (some t) now) b s (some t) 300 now
        = true) ∧
    (b ≠ b' →
      WebhookCrypto.verify (WebhookCrypto.sign b s (some t) now) b' s (some t) 300 now
        = false) ∧
    (300 < ((now : Int) - t').natAbs →
      WebhookCrypto.verify (WebhookCrypto.sign b s (some t) now) b s (some t') 300 now
        = false) := by
  refine ⟨?_, ?_, ?_⟩
  · intro hfresh
    simp only [WebhookCrypto.verify, WebhookCrypto.split_sign]
    simp [decide_eq_true hfresh]
  · intro hneq
    have hD : (WebhookCrypto.hmacSha256Hex s (WebhookCrypto.signMessage b (some t) now)).data ≠
        (WebhookCrypto.hmacSha256Hex s (WebhookCrypto.signMessage b' (some t) now)).data := by
      intro hdd
      have hstr := WebhookCrypto.string_data_inj _ _ hdd
      have hmsg := WebhookCrypto.hmac_msg_inj s _ _ hstr
      exact hneq (WebhookCrypto.signMessage_inj_body b b' (some t) now hmsg)
    simp only [WebhookCrypto.verify, WebhookCrypto.split_sign]
    by_cases hf : ((now : Int) - t).natAbs ≤ 300
    · simp [decide_eq_true hf, hD]
    · simp [decide_eq_false hf]
  · intro hstale
    have hf : ¬ ((now : Int) - t').natAbs ≤ 300 := by omega
    simp only [WebhookCrypto.verify, WebhookCrypto.split_sign]
    simp [decide_eq_false hf]

/-- Witness for C9: a concrete round-trip at matching time, a mismatching
body, and a stale timestamp 400 seconds later. -/
theorem claim_C9_witness :
    WebhookCrypto.verify (WebhookCrypto.sign "" "" (some 1) 1) "" "" (some 1) 300 1
      = true ∧
    WebhookCrypto.verify (WebhookCrypto.sign "" "" (some 1) 1) "!" "" (some 1) 300 1
      = false ∧
    WebhookCrypto.verify (WebhookCrypto.sign "" "" (some 1) 1) "" "" (some 401) 300 1
      = false := by
  have h := claim_C9_signature_roundtrip "" "!" "" 1 401 1
  exact ⟨h.1 (by decide), h.2.1 (by decide), h.2.2 (by decide)⟩

end FcfsBooking
